import Mathlib

/-!
Shallow embedding of the cmlLabServer backend (src/server.js, src/index.js,
src/unnamed/part_000): an Express + Mongoose REST service for an academic lab.
Requests are modelled as pure functions from a document-store snapshot and the
request data to a response and an updated snapshot.  The bcrypt and
jsonwebtoken packages are external collaborators (spec sections 4.1 and 4.2);
they are modelled by executable Lean functions that preserve exactly the
behaviour the handlers rely on: a salted one-way digest with a verification
path, and a signed token carrying the user id and role with no expiry claim.
-/

namespace CmlLabServer

/-! ### String helpers mirroring the JavaScript operations used by the handlers -/

/-- The JavaScript operation s.split(sep) for a single-character separator,
on the character list of the string: "a b".split yields two segments, a
leading, trailing or doubled separator yields empty segments, and the empty
string yields one empty segment. -/
def splitChars (sep : Char) : List Char → List (List Char)
  | [] => [[]]
  | c :: cs =>
    if c = sep then [] :: splitChars sep cs
    else
      match splitChars sep cs with
      | [] => [[c]]
      | r :: rs => (c :: r) :: rs

/-- token.split(' ') from the authenticate middleware. -/
def splitOnSpace (s : String) : List String :=
  (splitChars ' ' s.data).map (fun cs => String.mk cs)

/-- The whitespace class removed by the JavaScript String.prototype.trim. -/
def isJsSpace (c : Char) : Bool :=
  c = ' ' ∨ c = '\t' ∨ c = '\n' ∨ c = '\r'

/-- updates.password.trim() from the profile-update handler. -/
def trimStr (s : String) : String :=
  String.mk (((s.data.dropWhile isJsSpace).reverse.dropWhile isJsSpace).reverse)

/-- Decimal digit character. -/
def digitChar (d : Nat) : Char := Char.ofNat (48 + d)

/-- Little-endian decimal digits of a number, with fuel; the fuel only has to
exceed the number of digits, and the first argument n + 1 always does. -/
def natDigitsAux : Nat → Nat → List Char
  | 0, _ => []
  | fuel + 1, n =>
    if n < 10 then [digitChar n]
    else digitChar (n % 10) :: natDigitsAux fuel (n / 10)

/-- Decimal rendering of a number. -/
def natToStr (n : Nat) : String :=
  String.mk (natDigitsAux (n + 1) n).reverse

/-- Value of a decimal digit character, if it is one. -/
def charDigit (c : Char) : Option Nat :=
  if 48 ≤ c.toNat ∧ c.toNat ≤ 57 then some (c.toNat - 48) else none

/-- Big-endian decimal parse with an accumulator; fails on a non-digit. -/
def digitsToNatAux : List Char → Nat → Option Nat
  | [], acc => some acc
  | c :: cs, acc =>
    match charDigit c with
    | none => none
    | some d => digitsToNatAux cs (acc * 10 + d)

/-- Decimal parse of a nonempty character list. -/
def digitsToNat (l : List Char) : Option Nat :=
  match l with
  | [] => none
  | _ => digitsToNatAux l 0

/-- Fixed-width (six hex digits) encoding of one character, covering every
Unicode scalar value; produces only digits and lowercase letters a to f. -/
def hexCharChunk (c : Char) : List Char :=
  let hexDigit (d : Nat) : Char :=
    if d < 10 then Char.ofNat (48 + d) else Char.ofNat (87 + d)
  let n := c.toNat
  [hexDigit (n / 1048576 % 16), hexDigit (n / 65536 % 16), hexDigit (n / 4096 % 16),
   hexDigit (n / 256 % 16), hexDigit (n / 16 % 16), hexDigit (n % 16)]

/-- Hex encoding of a string, six digits per character; never contains a
space or a dot, so it survives the header and token segment splitting. -/
def hexStr (s : String) : String :=
  String.mk (s.data.flatMap hexCharChunk)

/-- Value of one hex digit character, if it is one. -/
def hexDigitVal (c : Char) : Option Nat :=
  if 48 ≤ c.toNat ∧ c.toNat ≤ 57 then some (c.toNat - 48)
  else if 97 ≤ c.toNat ∧ c.toNat ≤ 102 then some (c.toNat - 87)
  else none

/-- Decode of the fixed-width hex encoding: consumes six digits per
character; fails on a non-digit or a trailing partial chunk. -/
def hexDecode : List Char → Option (List Char)
  | [] => some []
  | a :: b :: c :: d :: e :: f :: rest => do
    let va ← hexDigitVal a
    let vb ← hexDigitVal b
    let vc ← hexDigitVal c
    let vd ← hexDigitVal d
    let ve ← hexDigitVal e
    let vf ← hexDigitVal f
    let rest' ← hexDecode rest
    some (Char.ofNat (((((va * 16 + vb) * 16 + vc) * 16 + vd) * 16 + ve) * 16 + vf) :: rest')
  | _ => none

/-! ### Token issuer and verifier (spec section 4.2, jsonwebtoken)

The login route signs the object with the user id and role fields using
process.env.JWT_SECRET and passes no expiresIn option, so the token carries
an issued-at claim but no expiry claim; jwt.verify checks the signature and
rejects an expired token only when an exp claim is present. -/

/-- The claims payload of a token. -/
structure JwtClaims where
  uid : String
  role : String
  iat : Nat
  exp : Option Nat
deriving DecidableEq

/-- Serialisation of the claims, the string the signature is computed over:
hex-encoded uid and role, then decimal issued-at, then the expiry (the letter
n when absent), joined by dots. -/
def encodeClaimsStr (c : JwtClaims) : String :=
  hexStr c.uid ++ "." ++ hexStr c.role ++ "." ++ natToStr c.iat ++ "."
    ++ (match c.exp with | none => "n" | some e => natToStr e)

/-- Keyed checksum standing in for the HMAC signature; the secret is the
process-wide JWT_SECRET. -/
def mac (secret : Nat) (payload : String) : Nat :=
  payload.data.foldl (fun h c => (h * 131 + c.toNat + 1) % 1000000007) (secret % 1000000007 + 1)

/-- A signed token: claims plus signature over their serialisation. -/
structure Jwt where
  claims : JwtClaims
  sig : Nat
deriving DecidableEq

/-- jwt.sign({ _id, role }, secret): issued-at recorded, no expiry set. -/
def jwtSign (secret : Nat) (uid role : String) (iat : Nat) : Jwt :=
  let c : JwtClaims := ⟨uid, role, iat, none⟩
  ⟨c, mac secret (encodeClaimsStr c)⟩

/-- jwt.verify(token, secret) at time now: checks the signature, then the
expiry claim when one is present; age is never consulted otherwise. -/
def jwtVerify (secret now : Nat) (t : Jwt) : Option JwtClaims :=
  if t.sig = mac secret (encodeClaimsStr t.claims) then
    match t.claims.exp with
    | some e => if e < now then none else some t.claims
    | none => some t.claims
  else none

/-- Wire form of a token: the serialised claims and the decimal signature,
joined by a dot; contains no space. -/
def encodeJwt (t : Jwt) : String :=
  encodeClaimsStr t.claims ++ "." ++ natToStr t.sig

/-- Parse of the wire form; any malformed string is rejected, which the
authenticate middleware surfaces as an invalid token. -/
def decodeJwt (s : String) : Option Jwt :=
  match splitChars '.' s.data with
  | [u, r, i, e, g] => do
    let uid ← hexDecode u
    let role ← hexDecode r
    let iat ← digitsToNat i
    let exp ← (if e = ['n'] then some none else (digitsToNat e).map some)
    let sig ← digitsToNat g
    some ⟨⟨String.mk uid, String.mk role, iat, exp⟩, sig⟩
  | _ => none

/-- jwt.verify applied to the raw token string from the header. -/
def jwtVerifyStr (secret now : Nat) (s : String) : Option JwtClaims :=
  (decodeJwt s).bind (jwtVerify secret now)

/-! ### Password hasher (spec section 4.1, bcrypt) -/

/-- A value of the stored password field.  The digest form records the salt
drawn by bcrypt.genSalt and the plaintext the digest verifies against (an
idealised one-way hash); the raw form marks a string written to the field
without passing through bcrypt.hash. -/
inductive StoredPassword
  | raw (value : String)
  | digest (salt : Nat) (plaintext : String)
deriving DecidableEq

/-- bcrypt.hash(pw, salt). -/
def bcryptHash (salt : Nat) (pw : String) : StoredPassword :=
  .digest salt pw

/-- bcrypt.compare(pw, stored): true exactly when the stored value is a
digest of pw; fails closed on a malformed stored value. -/
def bcryptCompare (pw : String) (stored : StoredPassword) : Bool :=
  match stored with
  | .digest _ p => pw = p
  | .raw _ => false

/-! ### Data model (the Mongoose schemas of src/server.js) -/

/-- One entry of the education or experience arrays of the user schema. -/
structure EduEntry where
  institution : Option String
  degree : Option String
  startDate : Option Nat
  endDate : Option Nat
deriving DecidableEq

/-- One entry of the links array of the user schema. -/
structure LinkEntry where
  linkType : Option String
  link : Option String
deriving DecidableEq

/-- A document of the User collection (userSchema, src/server.js lines 37-62). -/
structure UserRec where
  id : String
  name : String
  email : String
  address : Option String
  role : String
  bio : Option String
  image : Option String
  education : List EduEntry
  experience : List EduEntry
  links : List LinkEntry
  password : StoredPassword
  isAdmin : Bool
deriving DecidableEq

/-- A document of the Publication collection (publicationSchema, lines 64-72);
authors holds user ids, timestamps come from the timestamps schema option. -/
structure PubRec where
  id : String
  title : String
  authors : List String
  additionalAuthors : List String
  summary : Option String
  coverImage : Option String
  doi : Option String
  year : Int
  createdAt : Nat
  updatedAt : Nat
deriving DecidableEq

/-- A document of the Team collection (teamSchema, lines 74-78). -/
structure TeamRec where
  id : String
  userId : String
  addedBy : String
  isAlumni : Bool
deriving DecidableEq

/-- A document of the Address collection (addressSchema, lines 81-89). -/
structure AddressRec where
  id : String
  room : Option String
  department : Option String
  institution : Option String
  city : Option String
  state : Option String
  postalCode : Option String
  country : Option String
deriving DecidableEq

/-- A document of the Technology collection (technologySchema, lines 102-107). -/
structure TechnologyRec where
  id : String
  name : Option String
  icon : Option String
  description : Option String
  downloadLink : Option String
deriving DecidableEq

/-- A snapshot of the document store, one list per collection the claims
touch. -/
structure Store where
  users : List UserRec
  publications : List PubRec
  teams : List TeamRec
  addresses : List AddressRec
  technologies : List TechnologyRec
deriving DecidableEq

/-- User.findOne({ _id }): first user with the given id. -/
def findUserById (st : Store) (uid : String) : Option UserRec :=
  st.users.find? (fun u => u.id = uid)

/-- User.findOne({ email }): first user with the given email, an exact
case-sensitive match. -/
def findUserByEmail (st : Store) (email : String) : Option UserRec :=
  st.users.find? (fun u => u.email = email)

/-- Publication.findById. -/
def findPubById (st : Store) (pubId : String) : Option PubRec :=
  st.publications.find? (fun p => p.id = pubId)

/-- Address.findById. -/
def findAddressById (st : Store) (addrId : String) : Option AddressRec :=
  st.addresses.find? (fun a => a.id = addrId)

/-- Technology.findById. -/
def findTechnologyById (st : Store) (techId : String) : Option TechnologyRec :=
  st.technologies.find? (fun t => t.id = techId)

/-! ### Middleware -/

/-- Outcome of the authenticate middleware. -/
inductive AuthResult
  | reject (status : Nat) (msg : String)
  | ok (user : UserRec)
deriving DecidableEq

/-- The authenticate middleware (src/server.js lines 136-150, identical in
src/index.js lines 129-142): reads the Authorization header with a JS falsy
test, so an absent or empty header rejects 401; takes index 1 of the header
split on single spaces and verifies it as a token, any failure including a
missing segment landing in the catch that rejects 400; resolves the decoded
id against the User collection, rejecting 403 when no user matches; on
success the user is attached to the request and the chain proceeds. -/
def authenticate (secret now : Nat) (st : Store) (authHeader : Option String) : AuthResult :=
  match authHeader with
  | none => .reject 401 "Access denied"
  | some header =>
    if header = "" then .reject 401 "Access denied"
    else
      match ((splitOnSpace header)[1]?).bind (jwtVerifyStr secret now) with
      | none => .reject 400 "Invalid token"
      | some decoded =>
        match findUserById st decoded.uid with
        | none => .reject 403 "No user found"
        | some user => .ok user

/-- Outcome of a pass-or-reject middleware. -/
inductive MidResult
  | reject (status : Nat) (msg : String)
  | proceed
deriving DecidableEq

/-- The checkTeamMembership middleware (src/server.js lines 153-161): looks
up a Team document by the authenticated user's id; absent rejects 403,
present proceeds — the alumni flag is never read. -/
def checkTeamMembership (st : Store) (user : UserRec) : MidResult :=
  match st.teams.find? (fun t => t.userId = user.id) with
  | none => .reject 403 "Access denied: Not a team member"
  | some _ => .proceed

/-- A route response: an error status with its message, or a success status
with the JSON body. -/
inductive RouteOutcome (α : Type)
  | err (status : Nat) (msg : String)
  | ok (status : Nat) (body : α)
deriving DecidableEq

/-! ### User routes -/

/-- The request body of POST /api/users/register, after the multipart and
JSON parsing steps.  The body may carry any further keys — in particular an
isAdmin field — but the handler destructures only the named fields, so such
keys never reach the created document. -/
structure RegisterBody where
  name : Option String
  email : Option String
  address : Option String
  role : Option String
  bio : Option String
  password : Option String
  education : List EduEntry
  experience : List EduEntry
  links : List LinkEntry
  isAdmin : Option Bool
deriving DecidableEq

/-- POST /api/users/register (src/server.js lines 174-221): hashes the
password with a fresh salt, creates the user with the destructured fields
plus the uploaded image URL, and saves it; a missing password makes the hash
step throw, a missing required field or a duplicate email makes the save
throw, and every throw is answered with 500.  The isAdmin field of the body
is never read, so the document gets the schema default false. -/
def register (st : Store) (body : RegisterBody) (newId : String) (salt : Nat)
    (uploadedImage : Option String) : RouteOutcome String × Store :=
  match body.password with
  | none => (.err 500 "Internal Server Error: password missing", st)
  | some pw =>
    match body.name, body.email, body.role with
    | some nm, some em, some rl =>
      if st.users.any (fun u => u.email = em) then
        (.err 500 "Internal Server Error: duplicate email", st)
      else
        let user : UserRec :=
          { id := newId, name := nm, email := em, address := body.address, role := rl,
            bio := body.bio, image := uploadedImage, education := body.education,
            experience := body.experience, links := body.links,
            password := bcryptHash salt pw, isAdmin := false }
        (.ok 201 "User registered successfully", { st with users := st.users ++ [user] })
    | _, _, _ => (.err 500 "Internal Server Error: validation failed", st)

/-- POST /api/users/login (src/server.js lines 226-240): looks the user up by
email, compares the password against the stored digest, and on success signs
a token over the user id and role; the response body carries the full user
document and the token. -/
def login (secret now : Nat) (st : Store) (email pw : String) :
    RouteOutcome (UserRec × Jwt) :=
  match findUserByEmail st email with
  | none => .err 400 "Invalid email or password"
  | some user =>
    if bcryptCompare pw user.password then
      .ok 200 (user, jwtSign secret user.id user.role now)
    else .err 400 "Invalid email or password"

/-- The request body of PATCH /api/users: a partial field set over the user
schema; absent fields are not in the patch. -/
structure UserUpdates where
  name : Option String
  email : Option String
  address : Option String
  role : Option String
  bio : Option String
  image : Option String
  education : Option (List EduEntry)
  experience : Option (List EduEntry)
  links : Option (List LinkEntry)
  password : Option String
  isAdmin : Option Bool
deriving DecidableEq

/-- The $set merge of a user patch onto an existing document: the supplied
fields overwrite, the rest keep their value; the password field receives the
value prepared by the handler. -/
def applyUserUpdates (u : UserRec) (up : UserUpdates)
    (newPassword : Option StoredPassword) : UserRec :=
  { id := u.id
    name := up.name.getD u.name
    email := up.email.getD u.email
    address := match up.address with | some v => some v | none => u.address
    role := up.role.getD u.role
    bio := match up.bio with | some v => some v | none => u.bio
    image := match up.image with | some v => some v | none => u.image
    education := up.education.getD u.education
    experience := up.experience.getD u.experience
    links := up.links.getD u.links
    password := newPassword.getD u.password
    isAdmin := up.isAdmin.getD u.isAdmin }

/-- PATCH /api/users (src/server.js lines 242-283), after authenticate has
resolved the caller: an uploaded image overrides the image field of the
patch; the password is hashed only when it is truthy and nonblank after
trim, otherwise a supplied password value stays in the patch verbatim; the
whole patch is then applied with $set to the caller's document. -/
def patchUser (st : Store) (uid : String) (up : UserUpdates) (salt : Nat)
    (uploadedImage : Option String) : RouteOutcome UserRec × Store :=
  let up1 := match uploadedImage with
    | some url => { up with image := some url }
    | none => up
  let newPassword : Option StoredPassword :=
    match up1.password with
    | none => none
    | some pw =>
      if pw ≠ "" ∧ trimStr pw ≠ "" then some (bcryptHash salt pw)
      else some (.raw pw)
  match findUserById st uid with
  | none => (.err 404 "User not found", st)
  | some u =>
    let u2 := applyUserUpdates u up1 newPassword
    (.ok 200 u2,
      { st with users := st.users.map (fun w => if w.id = uid then u2 else w) })

/-! ### Publication routes -/

/-- The request body of PATCH /api/publications/:id: a partial field set
over the publication schema. -/
structure PubUpdates where
  title : Option String
  authors : Option (List String)
  additionalAuthors : Option (List String)
  summary : Option String
  coverImage : Option String
  doi : Option String
  year : Option Int
deriving DecidableEq

/-- The $set merge of a publication patch; the timestamps option refreshes
updatedAt on every findByIdAndUpdate. -/
def applyPubUpdates (p : PubRec) (up : PubUpdates) (now : Nat) : PubRec :=
  { id := p.id
    title := up.title.getD p.title
    authors := up.authors.getD p.authors
    additionalAuthors := up.additionalAuthors.getD p.additionalAuthors
    summary := match up.summary with | some v => some v | none => p.summary
    coverImage := match up.coverImage with | some v => some v | none => p.coverImage
    doi := match up.doi with | some v => some v | none => p.doi
    year := up.year.getD p.year
    createdAt := p.createdAt
    updatedAt := now }

/-- PATCH /api/publications/:id (src/server.js lines 504-538), the full
chain [authenticate, checkTeamMembership, upload] then the handler: missing
publication answers 404; a caller whose id is not contained in the authors
list answers 403 before the upload step, leaving the store untouched; an
author gets the patch — with the uploaded cover URL written into its
coverImage field — applied with $set. -/
def patchPublicationRoute (secret now : Nat) (st : Store) (authHeader : Option String)
    (pubId : String) (up : PubUpdates) (uploadedCover : Option String) :
    RouteOutcome PubRec × Store :=
  match authenticate secret now st authHeader with
  | .reject s m => (.err s m, st)
  | .ok user =>
    match checkTeamMembership st user with
    | .reject s m => (.err s m, st)
    | .proceed =>
      match findPubById st pubId with
      | none => (.err 404 "Publication not found", st)
      | some pub =>
        if pub.authors.contains user.id then
          let up1 := match uploadedCover with
            | some url => { up with coverImage := some url }
            | none => up
          let newPub := applyPubUpdates pub up1 now
          (.ok 200 newPub,
            { st with publications :=
                st.publications.map (fun q => if q.id = pubId then newPub else q) })
        else (.err 403 "Access denied: You are not an author of this publication", st)

/-- GET /api/publications/:id (src/server.js lines 541-561): authenticate
only — no team check — then 404 on a missing publication and 403 when the
caller's id is not contained in the authors list. -/
def getPublicationByIdRoute (secret now : Nat) (st : Store) (authHeader : Option String)
    (pubId : String) : RouteOutcome PubRec :=
  match authenticate secret now st authHeader with
  | .reject s m => .err s m
  | .ok user =>
    match findPubById st pubId with
    | none => .err 404 "Publication not found"
    | some pub =>
      if pub.authors.contains user.id then .ok 200 pub
      else .err 403 "Access denied: You are not an author of this publication"

/-- Publication.find().sort({ createdAt: -1 }): the publications ordered by
creation time, most recent first. -/
def sortByCreatedAtDesc (ps : List PubRec) : List PubRec :=
  List.insertionSort (fun a b => b.createdAt ≤ a.createdAt) ps

/-- The query of GET /api/publications (src/server.js lines 460-470): sort
by creation time descending, limit 5. -/
def getRecentPublications (st : Store) : List PubRec :=
  (sortByCreatedAtDesc st.publications).take 5

/-- GET /api/publications: the route carries no middleware, so the header is
never consulted and every caller gets the five most recent publications. -/
def getPublicationsRoute (st : Store) (_authHeader : Option String) :
    RouteOutcome (List PubRec) :=
  .ok 200 (getRecentPublications st)

/-- GET /api/publications/year/:year (src/server.js lines 472-480): no
middleware; exact integer match on the year field. -/
def getPublicationsByYearRoute (st : Store) (_authHeader : Option String) (yr : Int) :
    RouteOutcome (List PubRec) :=
  .ok 200 (st.publications.filter (fun p => p.year = yr))

/-! ### Address and technology routes -/

/-- The address fields a request body can carry, for create and for patch. -/
structure AddressFields where
  room : Option String
  department : Option String
  institution : Option String
  city : Option String
  state : Option String
  postalCode : Option String
  country : Option String
deriving DecidableEq

/-- The $set merge of an address patch. -/
def applyAddressUpdates (a : AddressRec) (up : AddressFields) : AddressRec :=
  { id := a.id
    room := match up.room with | some v => some v | none => a.room
    department := match up.department with | some v => some v | none => a.department
    institution := match up.institution with | some v => some v | none => a.institution
    city := match up.city with | some v => some v | none => a.city
    state := match up.state with | some v => some v | none => a.state
    postalCode := match up.postalCode with | some v => some v | none => a.postalCode
    country := match up.country with | some v => some v | none => a.country }

/-- POST /api/address of the src/server.js revision (lines 582-600), after
authenticate: the handler first requires the caller's admin flag, then
creates the document from the destructured fields. -/
def postAddressServer (st : Store) (user : UserRec) (body : AddressFields)
    (newId : String) : RouteOutcome AddressRec × Store :=
  if user.isAdmin = false then (.err 403 "Access denied", st)
  else
    let addr : AddressRec :=
      { id := newId, room := body.room, department := body.department,
        institution := body.institution, city := body.city, state := body.state,
        postalCode := body.postalCode, country := body.country }
    (.ok 201 addr, { st with addresses := st.addresses ++ [addr] })

/-- POST /api/address of the src/index.js revision (lines 334-351, identical
in src/unnamed/part_000 lines 408-425), after authenticate: no admin check —
any authenticated caller creates the document. -/
def postAddressIndex (st : Store) (_user : UserRec) (body : AddressFields)
    (newId : String) : RouteOutcome AddressRec × Store :=
  let addr : AddressRec :=
    { id := newId, room := body.room, department := body.department,
      institution := body.institution, city := body.city, state := body.state,
      postalCode := body.postalCode, country := body.country }
  (.ok 201 addr, { st with addresses := st.addresses ++ [addr] })

/-- PATCH /api/address/:id (src/server.js lines 611-622), after
authenticate: admin only; findByIdAndUpdate applies $set and returns null —
answered 404 — when no document has the id. -/
def patchAddress (st : Store) (user : UserRec) (addrId : String)
    (up : AddressFields) : RouteOutcome AddressRec × Store :=
  if user.isAdmin = false then (.err 403 "Access denied", st)
  else
    match findAddressById st addrId with
    | none => (.err 404 "Address not found", st)
    | some a =>
      let a2 := applyAddressUpdates a up
      (.ok 200 a2,
        { st with addresses := st.addresses.map (fun w => if w.id = addrId then a2 else w) })

/-- The technology fields a patch body can carry. -/
structure TechnologyFields where
  name : Option String
  icon : Option String
  description : Option String
  downloadLink : Option String
deriving DecidableEq

/-- The $set merge of a technology patch. -/
def applyTechnologyUpdates (t : TechnologyRec) (up : TechnologyFields) : TechnologyRec :=
  { id := t.id
    name := match up.name with | some v => some v | none => t.name
    icon := match up.icon with | some v => some v | none => t.icon
    description := match up.description with | some v => some v | none => t.description
    downloadLink := match up.downloadLink with | some v => some v | none => t.downloadLink }

/-- PATCH /api/technology/:id (src/server.js lines 739-750), after
authenticate: admin only; $set merge by id, 404 when the id is absent. -/
def patchTechnology (st : Store) (user : UserRec) (techId : String)
    (up : TechnologyFields) : RouteOutcome TechnologyRec × Store :=
  if user.isAdmin = false then (.err 403 "Access denied", st)
  else
    match findTechnologyById st techId with
    | none => (.err 404 "Technology not found", st)
    | some t =>
      let t2 := applyTechnologyUpdates t up
      (.ok 200 t2,
        { st with technologies := st.technologies.map (fun w => if w.id = techId then t2 else w) })

/-! ### Concrete fixtures used by witnesses and counterexamples -/

/-- A registered non-admin user. -/
def userA : UserRec :=
  { id := "u1", name := "A", email := "a@x.com", address := none, role := "Researcher",
    bio := none, image := none, education := [], experience := [], links := [],
    password := .digest 3 "secret123", isAdmin := false }

/-- A registered admin. -/
def userAdm : UserRec :=
  { id := "adm", name := "Adm", email := "adm@x.com", address := none, role := "Admin",
    bio := none, image := none, education := [], experience := [], links := [],
    password := .digest 6 "adminpw", isAdmin := true }

/-- A store holding just the non-admin user. -/
def stA : Store := ⟨[userA], [], [], [], []⟩

/-- A token signed for that user with secret 7. -/
def tokA : Jwt := jwtSign 7 "u1" "Researcher" 0

/-- A well-formed bearer header carrying that token. -/
def hdrA : String := "Bearer " ++ encodeJwt tokA

/-- A team membership record for the non-admin user. -/
def teamA : TeamRec := ⟨"t1", "u1", "adm", false⟩

/-- A publication authored by user u2 only. -/
def pubB : PubRec :=
  { id := "p1", title := "T", authors := ["u2"], additionalAuthors := [],
    summary := none, coverImage := none, doi := none, year := 2023,
    createdAt := 10, updatedAt := 10 }

/-- Store for the publication-edit scenarios: the caller is registered and on
the team but is not an author of the stored publication. -/
def stC3 : Store := ⟨[userA], [pubB], [teamA], [], []⟩

/-- A patch that supplies no publication field. -/
def emptyPubUpd : PubUpdates := ⟨none, none, none, none, none, none, none⟩

/-- A profile patch carrying only a whitespace-only password. -/
def updC4 : UserUpdates :=
  ⟨none, none, none, none, none, none, none, none, none, some " ", none⟩

/-- A profile patch carrying only an admin flag set to true. -/
def promoteUpd : UserUpdates :=
  ⟨none, none, none, none, none, none, none, none, none, none, some true⟩

/-- A registration body that also tries to smuggle an admin flag. -/
def regBody : RegisterBody :=
  ⟨some "B", some "b@x.com", none, some "PhD Student", none, some "pw",
   [], [], [], some true⟩

/-- The user document the registration above creates. -/
def userReg : UserRec :=
  { id := "u9", name := "B", email := "b@x.com", address := none, role := "PhD Student",
    bio := none, image := none, education := [], experience := [], links := [],
    password := .digest 4 "pw", isAdmin := false }

/-- The store after that registration. -/
def stAfterReg : Store := { stA with users := stA.users ++ [userReg] }

/-- An address create/patch body. -/
def addrBody : AddressFields :=
  ⟨some "101", some "CS", some "IIT", some "Pune", none, none, some "IN"⟩

/-- The address document the create above yields. -/
def addrNew : AddressRec :=
  ⟨"a1", some "101", some "CS", some "IIT", some "Pune", none, none, some "IN"⟩

/-- A store holding one address, for the update-by-id witness. -/
def stC8 : Store := ⟨[userAdm], [], [], [addrNew], []⟩

/-! ### Claim theorems -/

/-- C2 helper: verifying any token signed with the same secret succeeds at
every time and returns the signed claims unchanged. -/
theorem jwtVerify_jwtSign (secret iat now : Nat) (uid role : String) :
    jwtVerify secret now (jwtSign secret uid role iat) = some ⟨uid, role, iat, none⟩ := by
  simp [jwtVerify, jwtSign]

/-- C2: a token issued for a (user id, role) pair with the process-wide
secret — in particular the token the login route signs for the stored user —
verifies to exactly that user id and role at every later time, because no
expiry claim is set and verification consults age only through the expiry
claim. -/
theorem c2_issue_verify_roundtrip (secret iat now : Nat) (uid role : String)
    (st : Store) (email pw : String) (u : UserRec) (t : Jwt)
    (hlogin : login secret iat st email pw = .ok 200 (u, t)) :
    jwtVerify secret now (jwtSign secret uid role iat) = some ⟨uid, role, iat, none⟩
    ∧ jwtVerify secret now t = some ⟨u.id, u.role, iat, none⟩ := by
  refine ⟨jwtVerify_jwtSign secret iat now uid role, ?_⟩
  unfold login at hlogin
  cases hfind : findUserByEmail st email with
  | none => rw [hfind] at hlogin; exact absurd hlogin (by simp)
  | some user =>
    simp only [hfind] at hlogin
    by_cases hcmp : bcryptCompare pw user.password = true
    · simp only [if_pos hcmp, RouteOutcome.ok.injEq, Prod.mk.injEq, true_and] at hlogin
      obtain ⟨hu, ht⟩ := hlogin
      subst hu
      rw [← ht]
      exact jwtVerify_jwtSign secret iat now _ _
    · rw [if_neg hcmp] at hlogin; exact absurd hlogin (by simp)

set_option maxRecDepth 100000 in
/-- C2 witness: concrete instantiation, with the login hypothesis discharged
on a concrete store. -/
theorem c2_witness :
    jwtVerify 7 11 (jwtSign 7 "x" "y" 5) = some ⟨"x", "y", 5, none⟩
    ∧ jwtVerify 7 11 (jwtSign 7 "u1" "Researcher" 5) = some ⟨userA.id, userA.role, 5, none⟩ :=
  c2_issue_verify_roundtrip 7 5 11 "x" "y" stA "a@x.com" "secret123" userA
    (jwtSign 7 "u1" "Researcher" 5) (by decide)

/-- C5 helper: the team-membership middleware proceeds exactly when a team
record for the user's id is stored. -/
theorem checkTeamMembership_proceed_iff (st : Store) (user : UserRec) :
    checkTeamMembership st user = .proceed ↔ ∃ t ∈ st.teams, t.userId = user.id := by
  unfold checkTeamMembership
  cases hf : st.teams.find? (fun t => t.userId = user.id) with
  | none =>
    simp only [reduceCtorEq, false_iff]
    rintro ⟨t, ht, he⟩
    have := List.find?_eq_none.mp hf t ht
    simp [he] at this
  | some t =>
    simp only [true_iff]
    refine ⟨t, List.mem_of_find?_eq_some hf, ?_⟩
    have := List.find?_some hf
    simpa using this

/-- C5 helper: the team-membership middleware rejects 403 exactly when no
team record for the user's id is stored. -/
theorem checkTeamMembership_reject_iff (st : Store) (user : UserRec) :
    checkTeamMembership st user = .reject 403 "Access denied: Not a team member"
      ↔ ∀ t ∈ st.teams, t.userId ≠ user.id := by
  unfold checkTeamMembership
  cases hf : st.teams.find? (fun t => t.userId = user.id) with
  | none =>
    simp only [true_iff]
    intro t ht
    have := List.find?_eq_none.mp hf t ht
    simpa using this
  | some t =>
    simp only [reduceCtorEq, false_iff]
    intro hall
    have hmem := List.mem_of_find?_eq_some hf
    have hp := List.find?_some hf
    exact absurd (by simpa using hp) (hall t hmem)

/-- C5: after authentication, the team-membership gate rejects 403 exactly
when the user has no stored team record and proceeds exactly when one
exists; flipping every record's alumni flag in any way whatever never
changes the outcome. -/
theorem c5_team_membership (st : Store) (user : UserRec) :
    (checkTeamMembership st user = .reject 403 "Access denied: Not a team member"
      ↔ ∀ t ∈ st.teams, t.userId ≠ user.id)
    ∧ (checkTeamMembership st user = .proceed ↔ ∃ t ∈ st.teams, t.userId = user.id)
    ∧ ∀ f : TeamRec → Bool,
        checkTeamMembership
          { st with teams := st.teams.map (fun t => { t with isAlumni := f t }) } user
          = checkTeamMembership st user := by
  refine ⟨checkTeamMembership_reject_iff st user, checkTeamMembership_proceed_iff st user, ?_⟩
  intro f
  set st2 : Store := { st with teams := st.teams.map (fun t => { t with isAlumni := f t }) } with hst2
  by_cases hex : ∃ t ∈ st.teams, t.userId = user.id
  · obtain ⟨t, ht, he⟩ := hex
    have h1 : checkTeamMembership st user = .proceed :=
      (checkTeamMembership_proceed_iff st user).mpr ⟨t, ht, he⟩
    have h2 : checkTeamMembership st2 user = .proceed := by
      refine (checkTeamMembership_proceed_iff st2 user).mpr ?_
      exact ⟨{ t with isAlumni := f t }, List.mem_map_of_mem _ ht, he⟩
    rw [h1, h2]
  · push_neg at hex
    have h1 : checkTeamMembership st user = .reject 403 "Access denied: Not a team member" :=
      (checkTeamMembership_reject_iff st user).mpr hex
    have h2 : checkTeamMembership st2 user
        = .reject 403 "Access denied: Not a team member" := by
      refine (checkTeamMembership_reject_iff st2 user).mpr ?_
      intro t' ht'
      obtain ⟨t, ht, rfl⟩ := List.mem_map.mp ht'
      exact hex t ht
    rw [h1, h2]

/-- C5 witness: a user with a stored team record (alumni flag false)
proceeds. -/
theorem c5_witness :
    checkTeamMembership stC3 userA = .proceed :=
  (c5_team_membership stC3 userA).2.1.mpr ⟨teamA, by decide, by decide⟩

/-- C4: evaluating PATCH /api/users at the failing input.  The caller sends
a password consisting of one space: the guard sees a truthy value whose trim
is empty and skips hashing, but the raw value stays in the patch, so the
$set writes the plaintext string into the stored password field and the
request still succeeds with 200. -/
theorem c4_whitespace_password_stored_plaintext :
    (patchUser stA "u1" updC4 5 none).1 = .ok 200 { userA with password := .raw " " }
    ∧ (patchUser stA "u1" updC4 5 none).2.users.map UserRec.password = [.raw " "] := by
  decide

/-- C6 counterexample: the profile-update endpoint promotes its caller to
admin.  The stored user starts with the admin flag false; PATCH /api/users
with a body containing only the admin flag set to true passes it straight to
the $set, and the stored flag becomes true — so an API endpoint that
promotes a user to admin does exist, refuting the claim's final conjunct. -/
theorem c6_counterexample :
    (stA.users.map UserRec.isAdmin = [false])
    ∧ (patchUser stA "u1" promoteUpd 5 none).1 = .ok 200 { userA with isAdmin := true }
    ∧ (patchUser stA "u1" promoteUpd 5 none).2.users.map UserRec.isAdmin = [true] := by
  decide

/-- C6 amended: every user the registration path creates has the admin flag
false, whatever the body supplied — registration never stores a
caller-supplied admin flag; but the profile-update endpoint applies a
supplied admin flag, so a promotion endpoint does exist. -/
theorem c6_admin_flag (st : Store) (body : RegisterBody) (newId : String) (salt : Nat)
    (img : Option String) (res : RouteOutcome String) (st2 : Store)
    (hreg : register st body newId salt img = (res, st2)) :
    (∀ u ∈ st2.users, u ∉ st.users → u.isAdmin = false)
    ∧ ∀ (uid : String) (up : UserUpdates) (salt2 : Nat) (img2 : Option String)
        (u2 : UserRec) (st3 : Store),
        up.isAdmin = some true →
        patchUser st uid up salt2 img2 = (.ok 200 u2, st3) →
        u2.isAdmin = true := by
  constructor
  · unfold register at hreg
    split at hreg
    · injection hreg with h1 h2
      subst h2
      intro u hu hnu
      exact absurd hu hnu
    · split at hreg
      · split at hreg
        · injection hreg with h1 h2
          subst h2
          intro u hu hnu
          exact absurd hu hnu
        · injection hreg with h1 h2
          subst h2
          intro u hu hnu
          rcases List.mem_append.mp hu with h | h
          · exact absurd h hnu
          · rcases List.mem_singleton.mp h with rfl
            rfl
      · injection hreg with h1 h2
        subst h2
        intro u hu hnu
        exact absurd hu hnu
  · intro uid up salt2 img2 u2 st3 hadm hpatch
    unfold patchUser at hpatch
    cases img2 with
    | none =>
      cases hfind : findUserById st uid with
      | none =>
        simp only [hfind] at hpatch
        exact absurd (congrArg Prod.fst hpatch) (by simp)
      | some u =>
        simp only [hfind, Prod.mk.injEq, RouteOutcome.ok.injEq] at hpatch
        obtain ⟨⟨-, h1⟩, -⟩ := hpatch
        rw [← h1]
        simp [applyUserUpdates, hadm]
    | some url =>
      cases hfind : findUserById st uid with
      | none =>
        simp only [hfind] at hpatch
        exact absurd (congrArg Prod.fst hpatch) (by simp)
      | some u =>
        simp only [hfind, Prod.mk.injEq, RouteOutcome.ok.injEq] at hpatch
        obtain ⟨⟨-, h1⟩, -⟩ := hpatch
        rw [← h1]
        simp [applyUserUpdates, hadm]

/-- C6 witness: the concrete registration that tried to smuggle an admin
flag produced a user whose stored flag is false. -/
theorem c6_witness : userReg.isAdmin = false :=
  (c6_admin_flag stA regBody "u9" 4 none (.ok 201 "User registered successfully")
    stAfterReg (by decide)).1 userReg (by decide) (by decide)

/-- C9: the admin gate on the address-create route differs between the
repository's revisions.  On the same store, the same authenticated non-admin
caller and the same body, the src/server.js revision rejects 403 and leaves
the store unchanged while the src/index.js revision (also
src/unnamed/part_000) creates the address and answers 201 — the two
handlers are not equivalent. -/
theorem c9_admin_gate_differs :
    postAddressServer stA userA addrBody "a1" = (.err 403 "Access denied", stA)
    ∧ postAddressIndex stA userA addrBody "a1"
        = (.ok 201 addrNew, { stA with addresses := [addrNew] })
    ∧ postAddressServer stA userA addrBody "a1" ≠ postAddressIndex stA userA addrBody "a1" := by
  decide

/-- Splitting a list that starts with a separator-free block followed by the
separator peels the block off as the first segment. -/
theorem splitChars_append (sep : Char) (a b : List Char) (ha : sep ∉ a) :
    splitChars sep (a ++ sep :: b) = a :: splitChars sep b := by
  induction a with
  | nil => simp [splitChars]
  | cons c a ih =>
    have hc : ¬ c = sep := by rintro rfl; exact ha (List.mem_cons_self _ _)
    have ha2 : sep ∉ a := fun h => ha (List.mem_cons_of_mem _ h)
    rw [List.cons_append]
    simp only [splitChars]
    rw [if_neg hc, ih ha2]

/-- Splitting a separator-free list yields that list as the one segment. -/
theorem splitChars_of_not_mem (sep : Char) (b : List Char) (hb : sep ∉ b) :
    splitChars sep b = [b] := by
  induction b with
  | nil => rfl
  | cons c cs ih =>
    have hc : ¬ c = sep := by rintro rfl; exact hb (List.mem_cons_self _ _)
    have hcs : sep ∉ cs := fun h => hb (List.mem_cons_of_mem _ h)
    unfold splitChars
    rw [if_neg hc, ih hcs]

/-- For a header of the shape scheme-space-token with a space-free scheme
and token, index 1 of the split is exactly the token — the segment after the
first space. -/
theorem tokenSegment_of_header (scheme tok : String)
    (hs : ' ' ∉ scheme.data) (ht : ' ' ∉ tok.data) :
    (splitOnSpace (scheme ++ " " ++ tok))[1]? = some tok := by
  have hdata : (scheme ++ " " ++ tok).data = scheme.data ++ ' ' :: tok.data := by
    simp [String.data_append]
  unfold splitOnSpace
  rw [hdata, splitChars_append ' ' scheme.data tok.data hs,
    splitChars_of_not_mem ' ' tok.data ht]
  rfl

/-- C1 counterexample: an Authorization header that is present with the
empty value.  The claim says a present header's token segment is extracted
and verified with any verification failure answered 400; the middleware
instead answers 401, because the JavaScript falsy test lumps an empty header
together with a missing one. -/
theorem c1_counterexample :
    authenticate 7 0 stA (some "") = .reject 401 "Access denied"
    ∧ authenticate 7 0 stA (some "") ≠ .reject 400 "Invalid token" := by
  decide

/-- C1 amended: a missing header — and likewise a present-but-empty one —
answers 401; for a nonempty header the segment at index 1 of the space split
is verified, any failure (bad signature, malformed token, missing segment)
answering 400; a verified token whose decoded id matches no stored user
answers 403; otherwise the matched user is attached and the chain proceeds.
For a header of the usual scheme-space-token shape, the verified segment is
exactly the token after the first space. -/
theorem c1_authenticate_cases (secret now : Nat) (st : Store) :
    authenticate secret now st none = .reject 401 "Access denied"
    ∧ authenticate secret now st (some "") = .reject 401 "Access denied"
    ∧ (∀ h : String, h ≠ "" →
        (((splitOnSpace h)[1]?).bind (jwtVerifyStr secret now) = none →
          authenticate secret now st (some h) = .reject 400 "Invalid token")
        ∧ ∀ c : JwtClaims, ((splitOnSpace h)[1]?).bind (jwtVerifyStr secret now) = some c →
            (findUserById st c.uid = none →
              authenticate secret now st (some h) = .reject 403 "No user found")
            ∧ ∀ u : UserRec, findUserById st c.uid = some u →
                authenticate secret now st (some h) = .ok u)
    ∧ ∀ scheme tok : String, ' ' ∉ scheme.data → ' ' ∉ tok.data →
        (splitOnSpace (scheme ++ " " ++ tok))[1]? = some tok := by
  refine ⟨rfl, by simp [authenticate], ?_, ?_⟩
  · intro h hne
    constructor
    · intro hv
      simp [authenticate, hne, hv]
    · intro c hv
      constructor
      · intro hu
        simp [authenticate, hne, hv, hu]
      · intro u hu
        simp [authenticate, hne, hv, hu]
  · intro scheme tok hs ht
    exact tokenSegment_of_header scheme tok hs ht

set_option maxRecDepth 100000 in
/-- C1 witness: a well-formed bearer header over a valid token for a stored
user authenticates as that user. -/
theorem c1_witness : authenticate 7 0 stA (some hdrA) = .ok userA :=
  (((c1_authenticate_cases 7 0 stA).2.2.1 hdrA (by decide)).2
      ⟨"u1", "Researcher", 0, none⟩ (by decide)).2 userA (by decide)

/-- C3: for an authenticated team member and an existing publication, a
requester whose id is not in the stored authors list gets 403 and the store
is untouched; a listed author's patch is applied — every supplied field
overwrites the stored one, and an uploaded cover image lands in the
coverImage field. -/
theorem c3_publication_edit (secret now : Nat) (st : Store) (hdr : Option String)
    (pubId : String) (user : UserRec) (pub : PubRec)
    (hauth : authenticate secret now st hdr = .ok user)
    (hteam : checkTeamMembership st user = .proceed)
    (hpub : findPubById st pubId = some pub) :
    (user.id ∉ pub.authors →
      ∀ (up : PubUpdates) (cover : Option String),
        patchPublicationRoute secret now st hdr pubId up cover
          = (.err 403 "Access denied: You are not an author of this publication", st))
    ∧ (user.id ∈ pub.authors →
      ∀ (up : PubUpdates) (cover : Option String),
        ∃ p2 : PubRec,
          patchPublicationRoute secret now st hdr pubId up cover
            = (.ok 200 p2,
               { st with publications :=
                   st.publications.map (fun q => if q.id = pubId then p2 else q) })
          ∧ (∀ v, up.title = some v → p2.title = v)
          ∧ (∀ v, up.authors = some v → p2.authors = v)
          ∧ (∀ v, up.additionalAuthors = some v → p2.additionalAuthors = v)
          ∧ (∀ v, up.summary = some v → p2.summary = some v)
          ∧ (∀ v, up.doi = some v → p2.doi = some v)
          ∧ (∀ v, up.year = some v → p2.year = v)
          ∧ (∀ url, cover = some url → p2.coverImage = some url)
          ∧ (cover = none → ∀ v, up.coverImage = some v → p2.coverImage = some v)) := by
  constructor
  · intro hnot up cover
    simp [patchPublicationRoute, hauth, hteam, hpub, hnot]
  · intro hmem up cover
    cases cover with
    | none =>
      refine ⟨applyPubUpdates pub up now, ?_, ?_, ?_, ?_, ?_, ?_, ?_, ?_, ?_⟩
      · simp [patchPublicationRoute, hauth, hteam, hpub, hmem]
      · intro v hv; simp [applyPubUpdates, hv]
      · intro v hv; simp [applyPubUpdates, hv]
      · intro v hv; simp [applyPubUpdates, hv]
      · intro v hv; simp [applyPubUpdates, hv]
      · intro v hv; simp [applyPubUpdates, hv]
      · intro v hv; simp [applyPubUpdates, hv]
      · intro url hurl; exact absurd hurl (by simp)
      · intro _ v hv; simp [applyPubUpdates, hv]
    | some url =>
      refine ⟨applyPubUpdates pub { up with coverImage := some url } now,
        ?_, ?_, ?_, ?_, ?_, ?_, ?_, ?_, ?_⟩
      · simp [patchPublicationRoute, hauth, hteam, hpub, hmem]
      · intro v hv; simp [applyPubUpdates, hv]
      · intro v hv; simp [applyPubUpdates, hv]
      · intro v hv; simp [applyPubUpdates, hv]
      · intro v hv; simp [applyPubUpdates, hv]
      · intro v hv; simp [applyPubUpdates, hv]
      · intro v hv; simp [applyPubUpdates, hv]
      · intro url2 hurl; injection hurl with hurl; subst hurl; simp [applyPubUpdates]
      · intro hnone; exact absurd hnone (by simp)

set_option maxRecDepth 100000 in
/-- C3 witness: the authenticated team member u1 is not an author of the
stored publication, so the edit answers 403 and the store is unchanged. -/
theorem c3_witness :
    patchPublicationRoute 7 0 stC3 (some hdrA) "p1" emptyPubUpd none
      = (.err 403 "Access denied: You are not an author of this publication", stC3) :=
  (c3_publication_edit 7 0 stC3 (some hdrA) "p1" userA pubB
      (by decide) (by decide) (by decide)).1 (by decide) emptyPubUpd none

/-- C10: reading one publication by id goes through authenticate and then
rejects 403 whenever the caller is not in the stored authors list, while
the recent listing and the by-year listing never consult the header at all
and answer 200 for every caller. -/
theorem c10_publication_read_not_public (secret now : Nat) (st : Store)
    (hdr : Option String) (pubId : String) (user : UserRec) (pub : PubRec)
    (hauth : authenticate secret now st hdr = .ok user)
    (hpub : findPubById st pubId = some pub)
    (hnot : user.id ∉ pub.authors) :
    getPublicationByIdRoute secret now st hdr pubId
      = .err 403 "Access denied: You are not an author of this publication"
    ∧ (∀ h1 h2 : Option String, getPublicationsRoute st h1 = getPublicationsRoute st h2)
    ∧ getPublicationsRoute st none = .ok 200 (getRecentPublications st)
    ∧ ∀ (yr : Int) (h1 : Option String),
        getPublicationsByYearRoute st h1 yr
          = .ok 200 (st.publications.filter (fun p => p.year = yr)) := by
  refine ⟨?_, fun h1 h2 => rfl, rfl, fun yr h1 => rfl⟩
  simp [getPublicationByIdRoute, hauth, hpub, hnot]

set_option maxRecDepth 100000 in
/-- C10 witness: authenticated non-author u1 is denied the single-record
read of the stored publication. -/
theorem c10_witness :
    getPublicationByIdRoute 7 0 stC3 (some hdrA) "p1"
      = .err 403 "Access denied: You are not an author of this publication" :=
  (c10_publication_read_not_public 7 0 stC3 (some hdrA) "p1" userA pubB
    (by decide) (by decide) (by decide)).1

/-- One field of a $set merge: an unsupplied field keeps the old value, a
supplied one overwrites it. -/
def optPatched {α : Type} (supplied : Option α) (old new : Option α) : Prop :=
  match supplied with
  | none => new = old
  | some v => new = some v

/-- C8: for the flat-entity update-by-id handlers (address, technology),
called by an admin: a missing id answers 404 and leaves the store unchanged;
an existing record gets exactly the supplied fields overwritten, every other
field keeps its previous value, the merged record is returned with 200, and
every other record of the collection is untouched. -/
theorem c8_update_by_id (st : Store) (user : UserRec) (hadmin : user.isAdmin = true) :
    (∀ (addrId : String) (up : AddressFields),
      (findAddressById st addrId = none →
        patchAddress st user addrId up = (.err 404 "Address not found", st))
      ∧ ∀ a : AddressRec, findAddressById st addrId = some a →
          patchAddress st user addrId up
            = (.ok 200 (applyAddressUpdates a up),
               { st with addresses :=
                   st.addresses.map fun w =>
                     if w.id = addrId then applyAddressUpdates a up else w })
          ∧ (applyAddressUpdates a up).id = a.id
          ∧ optPatched up.room a.room (applyAddressUpdates a up).room
          ∧ optPatched up.department a.department (applyAddressUpdates a up).department
          ∧ optPatched up.institution a.institution (applyAddressUpdates a up).institution
          ∧ optPatched up.city a.city (applyAddressUpdates a up).city
          ∧ optPatched up.state a.state (applyAddressUpdates a up).state
          ∧ optPatched up.postalCode a.postalCode (applyAddressUpdates a up).postalCode
          ∧ optPatched up.country a.country (applyAddressUpdates a up).country
          ∧ ∀ b ∈ st.addresses, b.id ≠ addrId →
              b ∈ (patchAddress st user addrId up).2.addresses)
    ∧ (∀ (techId : String) (up : TechnologyFields),
      (findTechnologyById st techId = none →
        patchTechnology st user techId up = (.err 404 "Technology not found", st))
      ∧ ∀ t : TechnologyRec, findTechnologyById st techId = some t →
          patchTechnology st user techId up
            = (.ok 200 (applyTechnologyUpdates t up),
               { st with technologies :=
                   st.technologies.map fun w =>
                     if w.id = techId then applyTechnologyUpdates t up else w })
          ∧ (applyTechnologyUpdates t up).id = t.id
          ∧ optPatched up.name t.name (applyTechnologyUpdates t up).name
          ∧ optPatched up.icon t.icon (applyTechnologyUpdates t up).icon
          ∧ optPatched up.description t.description (applyTechnologyUpdates t up).description
          ∧ optPatched up.downloadLink t.downloadLink (applyTechnologyUpdates t up).downloadLink
          ∧ ∀ b ∈ st.technologies, b.id ≠ techId →
              b ∈ (patchTechnology st user techId up).2.technologies) := by
  constructor
  · intro addrId up
    constructor
    · intro hf
      simp [patchAddress, hadmin, hf]
    · intro a ha
      have heq : patchAddress st user addrId up
          = (.ok 200 (applyAddressUpdates a up),
             { st with addresses :=
                 st.addresses.map fun w =>
                   if w.id = addrId then applyAddressUpdates a up else w }) := by
        simp [patchAddress, hadmin, ha]
      refine ⟨heq, rfl, ?_, ?_, ?_, ?_, ?_, ?_, ?_, ?_⟩
      · cases hr : up.room <;> simp [optPatched, applyAddressUpdates, hr]
      · cases hr : up.department <;> simp [optPatched, applyAddressUpdates, hr]
      · cases hr : up.institution <;> simp [optPatched, applyAddressUpdates, hr]
      · cases hr : up.city <;> simp [optPatched, applyAddressUpdates, hr]
      · cases hr : up.state <;> simp [optPatched, applyAddressUpdates, hr]
      · cases hr : up.postalCode <;> simp [optPatched, applyAddressUpdates, hr]
      · cases hr : up.country <;> simp [optPatched, applyAddressUpdates, hr]
      · intro b hb hne
        rw [heq]
        exact List.mem_map.mpr ⟨b, hb, by simp [hne]⟩
  · intro techId up
    constructor
    · intro hf
      simp [patchTechnology, hadmin, hf]
    · intro t ht
      have heq : patchTechnology st user techId up
          = (.ok 200 (applyTechnologyUpdates t up),
             { st with technologies :=
                 st.technologies.map fun w =>
                   if w.id = techId then applyTechnologyUpdates t up else w }) := by
        simp [patchTechnology, hadmin, ht]
      refine ⟨heq, rfl, ?_, ?_, ?_, ?_, ?_⟩
      · cases hr : up.name <;> simp [optPatched, applyTechnologyUpdates, hr]
      · cases hr : up.icon <;> simp [optPatched, applyTechnologyUpdates, hr]
      · cases hr : up.description <;> simp [optPatched, applyTechnologyUpdates, hr]
      · cases hr : up.downloadLink <;> simp [optPatched, applyTechnologyUpdates, hr]
      · intro b hb hne
        rw [heq]
        exact List.mem_map.mpr ⟨b, hb, by simp [hne]⟩

/-- C8 witness: patching the stored address merges the supplied fields and
returns 200. -/
theorem c8_witness :
    patchAddress stC8 userAdm "a1" addrBody
      = (.ok 200 (applyAddressUpdates addrNew addrBody),
         { stC8 with addresses :=
             stC8.addresses.map fun w =>
               if w.id = "a1" then applyAddressUpdates addrNew addrBody else w }) :=
  (((c8_update_by_id stC8 userAdm (by decide)).1 "a1" addrBody).2 addrNew (by decide)).1

/-- C7: on any store whose publications have pairwise distinct creation
times, the recent listing returns min(n, 5) publications in strictly
descending creation order, all drawn from the store; with five or fewer
stored it returns all of them; and the route answers 200 to every caller. -/
theorem c7_recent_publications (st : Store)
    (hdistinct : (st.publications.map PubRec.createdAt).Nodup) :
    (getRecentPublications st).length = min st.publications.length 5
    ∧ List.Pairwise (fun a b => b.createdAt < a.createdAt) (getRecentPublications st)
    ∧ (∀ p ∈ getRecentPublications st, p ∈ st.publications)
    ∧ (st.publications.length ≤ 5 →
        List.Perm (getRecentPublications st) st.publications)
    ∧ ∀ hdr : Option String, getPublicationsRoute st hdr = .ok 200 (getRecentPublications st) := by
  haveI htot : IsTotal PubRec (fun a b => b.createdAt ≤ a.createdAt) :=
    ⟨fun a b => le_total b.createdAt a.createdAt⟩
  haveI htr : IsTrans PubRec (fun a b => b.createdAt ≤ a.createdAt) :=
    ⟨fun _ _ _ hab hbc => le_trans hbc hab⟩
  have hsorted : List.Sorted (fun a b => b.createdAt ≤ a.createdAt)
      (sortByCreatedAtDesc st.publications) :=
    List.sorted_insertionSort _ _
  have hperm : List.Perm (sortByCreatedAtDesc st.publications) st.publications :=
    List.perm_insertionSort _ _
  have hlen : (sortByCreatedAtDesc st.publications).length = st.publications.length :=
    hperm.length_eq
  refine ⟨?_, ?_, ?_, ?_, fun hdr => rfl⟩
  · unfold getRecentPublications
    rw [List.length_take, hlen, Nat.min_comm]
  · have hnodup2 : ((sortByCreatedAtDesc st.publications).map PubRec.createdAt).Nodup :=
      ((hperm.map PubRec.createdAt).nodup_iff).mpr hdistinct
    have hpne : List.Pairwise (fun a b : PubRec => a.createdAt ≠ b.createdAt)
        (sortByCreatedAtDesc st.publications) :=
      List.pairwise_map.mp hnodup2
    have hlt : List.Pairwise (fun a b : PubRec => b.createdAt < a.createdAt)
        (sortByCreatedAtDesc st.publications) := by
      refine (hsorted.and hpne).imp ?_
      rintro a b ⟨hle, hne⟩
      exact lt_of_le_of_ne hle (fun h => hne h.symm)
    exact hlt.sublist (List.take_sublist 5 _)
  · intro p hp
    exact hperm.subset ((List.take_sublist 5 _).subset hp)
  · intro hle
    unfold getRecentPublications
    rw [List.take_of_length_le (hlen ▸ hle)]
    exact hperm

/-- The six distinct-time publications of the recent-listing witness. -/
def pubsC7 : List PubRec :=
  [{ pubB with id := "q1", createdAt := 1, updatedAt := 1 },
   { pubB with id := "q2", createdAt := 2, updatedAt := 2 },
   { pubB with id := "q3", createdAt := 3, updatedAt := 3 },
   { pubB with id := "q4", createdAt := 4, updatedAt := 4 },
   { pubB with id := "q5", createdAt := 5, updatedAt := 5 },
   { pubB with id := "q6", createdAt := 6, updatedAt := 6 }]

/-- A store with six publications created at distinct times. -/
def stC7 : Store := ⟨[], pubsC7, [], [], []⟩

/-- C7 witness: on the six-publication store, the recent listing holds
exactly five records. -/
theorem c7_witness :
    (getRecentPublications stC7).length = min stC7.publications.length 5 :=
  (c7_recent_publications stC7 (by decide)).1

end CmlLabServer
